import Mathlib

/-!
Verification of the WSD repository's core components against its
natural-language specification.

Shallow embedding of:
* `src/evaluator/wsd_heuristics.py` — the try-again re-ranking mechanism
  (class `TryAgainMechanism` and class
  `TryAgainMechanismWithCoarseSenseInventory`), and
* `src/evaluator/_supervised_base.py` — the metric functions
  (`BaseEvaluator`), the corrected macro averaging
  (`BaseEvaluatorByRaganatoAndMaru.macro_average`) and the evaluation
  aggregation (`WSDTaskEvaluatorBase.evaluate`).

Modelling conventions:
* Similarity scores are extended rationals (`WithTop ℚ`), so that the
  legacy branch adding `float("inf")` to a score is expressible; all
  other real arithmetic is modelled exactly over `ℚ`.
* External collaborators (WordNet lookups, gloss embeddings, the cosine
  or dot similarity of the fixed query vector against a lemma-key
  embedding, and the `compute_macro_f1_score_by_maru` function living in
  the module `_macro_metric.py`, which is not part of the sources) are
  opaque function parameters, mirroring the spec's collaborator
  contracts in section 6.
* Python's `sorted` is a stable sort; a stable sort by a fixed key is
  extensionally unique, so it is embedded as a stable insertion sort.
* CSI table lines are modelled as their lists of tab-separated fields,
  i.e. as the result of Python's `record.strip().split("\t")`.
-/

/-- Scores: rationals extended with a top element standing for the
positive infinity produced by `float("inf")`. -/
abbrev Score : Type := WithTop ℚ

/-- Arithmetic mean of a list of rationals, modelling `np.mean`
(the empty list, `np.mean([]) = NaN`, is mapped to `0`; it is never
reached on the inputs the code feeds it). -/
def listMean (l : List ℚ) : ℚ := l.sum / (l.length : ℚ)

/-- Stable insertion of a keyed pair into a list sorted by descending
score: the new pair goes after every element with a score greater than
or equal to its own, as Python's stable `sorted(..., reverse=True)`
places earlier-input elements first among ties. -/
def insertDesc (p : String × Score) : List (String × Score) → List (String × Score)
  | [] => [p]
  | q :: rest => if p.2 < q.2 then q :: insertDesc p rest else p :: q :: rest

/-- Stable sort by descending similarity score, modelling
`sorted(zip(keys, sims), key=lambda pair: pair[-1], reverse=True)`. -/
def sortByScoreDesc (l : List (String × Score)) : List (String × Score) :=
  l.foldr insertDesc []

/-- The top-k working set `W` of `try_again_mechanism`: the first
`top_k_candidates` pairs of the stable descending sort of the zipped
candidate keys and similarities. -/
def workingSet (keys : List String) (sims : List Score) (top_k_candidates : Nat) :
    List (String × Score) :=
  (sortByScoreDesc (keys.zip sims)).take top_k_candidates

namespace TryAgainMechanism

/-- Configuration flags of `TryAgainMechanism.__init__`. -/
structure Config where
  exclude_common_semantically_related_synsets : Bool
  lookup_first_lemma_sense_only : Bool
  average_similarity_in_synset : Bool
  exclude_oneselves_for_noun_and_verb : Bool
  do_not_fix_synset_degeneration_bug : Bool

/-- External collaborators of the relation-walk variant.
`query_similarity` is the composition of
`self._lemma_key_embeddings_dataset.get_lemma_key_embeddings` with the
configured similarity metric (cosine or dot product) against the fixed
query embedding; `gloss_extend` has the `semantic_relation` selector
already applied. -/
structure Collab where
  lemma_key_to_synset_id : String → String
  gloss_extend : String → Finset String
  synset_id_to_lexname : String → String
  get_lexname_synsets : String → Finset String
  synset_to_lemma_keys : String → List String
  query_similarity : String → ℚ

/-- The set subtracted from every expansion set when
`exclude_common_semantically_related_synsets` applies, transcribing
`set().union(*lst_set_synsets).intersection(*lst_set_synsets)`. -/
def commonSet (L : List (Finset String)) : Finset String :=
  L.foldl (fun a b => a ∩ b) (L.foldl (fun a b => a ∪ b) ∅)

/-- Plain intersection of a list of sets (the intersection of all
`E(s)`), used to characterise `commonSet`. -/
def interAll (L : List (Finset String)) : Finset String :=
  match L with
  | [] => ∅
  | E :: rest => rest.foldl (fun a b => a ∩ b) E

/-- The per-synset semantically related set after the optional removal
of the common synsets (lines 100-107 of `wsd_heuristics.py`):
`dict_try_again_synsets[s]` right before the lexname extension. -/
def expansionBase (cfg : Config) (cb : Collab) (candIds : List String) (s : String) :
    Finset String :=
  if cfg.exclude_common_semantically_related_synsets = true ∧ 1 < candIds.length then
    cb.gloss_extend s \ commonSet (candIds.map cb.gloss_extend)
  else cb.gloss_extend s

/-- Whether the candidate synsets span more than one lexname
(`is_different_lexname`, line 109). -/
def is_different_lexname (cb : Collab) (candIds : List String) : Bool :=
  1 < ((candIds.map cb.synset_id_to_lexname).dedup).length

/-- The final expansion set of a candidate synset: the base set,
extended with the synsets of its lexname when the candidates span
several lexnames (lines 110-114). -/
def expansionSet (cfg : Config) (cb : Collab) (candIds : List String) (s : String) :
    Finset String :=
  if is_different_lexname cb candIds = true then
    expansionBase cfg cb candIds s ∪ cb.get_lexname_synsets (cb.synset_id_to_lexname s)
  else expansionBase cfg cb candIds s

/-- Similarities contributed by one try-again synset (lines 124-138):
its lemma keys (only the first when `lookup_first_lemma_sense_only`),
their query similarities, optionally reduced to their mean. -/
def synset_contribution (cfg : Config) (cb : Collab) (r : String) : List ℚ :=
  let ks := cb.synset_to_lemma_keys r
  let ks2 := if cfg.lookup_first_lemma_sense_only = true then ks.take 1 else ks
  let vs := ks2.map cb.query_similarity
  if cfg.average_similarity_in_synset = true then [listMean vs] else vs

/-- The try-again similarity of one candidate synset (lines 116-141):
the maximum of the accumulated similarities over its expansion set,
skipping candidate synsets themselves for nouns and verbs when
`exclude_oneselves_for_noun_and_verb`, and `0.0` when nothing
accumulated. -/
def try_again_similarity (cfg : Config) (cb : Collab) (pos : String)
    (candIds : List String) (s : String) : ℚ :=
  let E := expansionSet cfg cb candIds s
  let kept := E.filter (fun r =>
    ¬(cfg.exclude_oneselves_for_noun_and_verb = true ∧ r ∈ candIds ∧ (pos = "n" ∨ pos = "v")))
  let sims := (kept.sort (fun a b => a ≤ b)).flatMap (synset_contribution cfg cb)
  match sims with
  | [] => 0
  | x :: xs => xs.foldl max x

/-- `TryAgainMechanism.try_again_mechanism` (lines 62-150).  Candidate
synset ids are deduplicated in first-insertion order, as the Python
dict keyed by synset id does.  In the degenerate-synset branch the
index is the first occurrence of the least-similar working-set key in
the original list (`list.index`), and in the final loop each update
writes through `list.index` of the key as well. -/
def try_again_mechanism (cfg : Config) (cb : Collab) (pos : String)
    (lst_candidate_lemma_keys : List String) (lst_candidate_similarities : List Score)
    (top_k_candidates : Nat) : List String × List Score :=
  if lst_candidate_lemma_keys.length = 1 then
    (lst_candidate_lemma_keys, lst_candidate_similarities)
  else
    let topk := workingSet lst_candidate_lemma_keys lst_candidate_similarities top_k_candidates
    let candIds := ((topk.map (fun p => cb.lemma_key_to_synset_id p.1)).dedup)
    if candIds.length = 1 ∧ cfg.do_not_fix_synset_degeneration_bug = true then
      let least := topk.getLastD ("", 0)
      let idx := List.indexOf least.1 lst_candidate_lemma_keys
      (lst_candidate_lemma_keys,
        lst_candidate_similarities.set idx
          (lst_candidate_similarities.getD idx 0 + ⊤))
    else
      (lst_candidate_lemma_keys,
        topk.foldl (fun acc p =>
          acc.set (List.indexOf p.1 lst_candidate_lemma_keys)
            (p.2 + (try_again_similarity cfg cb pos candIds (cb.lemma_key_to_synset_id p.1) : ℚ)))
          lst_candidate_similarities)

end TryAgainMechanism

namespace TryAgainMechanismWithCoarseSenseInventory

/-- External collaborators of the CSI variant; `synset_id_to_csi_labels`
returns `none` for a synset with no CSI entry (`dict.get(..., None)`),
and `csi_label_to_synsets` is total with empty default (defaultdict). -/
structure Collab where
  lemma_key_to_synset_id : String → String
  synset_id_to_csi_labels : String → Option (List String)
  csi_label_to_synsets : String → Finset String
  synset_to_lemma_keys : String → List String
  query_similarity : String → ℚ

/-- Expansion set of the CSI variant (lines 243-251): the union of the
synsets of every CSI label of the candidate synset, empty when the
synset has no CSI entry. -/
def csi_expansion (cb : Collab) (s : String) : Finset String :=
  match cb.synset_id_to_csi_labels s with
  | none => ∅
  | some labels => labels.foldl (fun acc lab => acc ∪ cb.csi_label_to_synsets lab) ∅

/-- Try-again similarity of the CSI variant (lines 253-268): maximum of
the query similarities of all lemma keys of all synsets of the
expansion set, `0.0` when none. -/
def try_again_similarity (cb : Collab) (s : String) : ℚ :=
  let sims := ((csi_expansion cb s).sort (fun a b => a ≤ b)).flatMap
    (fun r => (cb.synset_to_lemma_keys r).map cb.query_similarity)
  match sims with
  | [] => 0
  | x :: xs => xs.foldl max x

/-- `TryAgainMechanismWithCoarseSenseInventory.try_again_mechanism`
(lines 213-277): no degenerate-synset special case; part of speech is
taken but unused by this variant. -/
def try_again_mechanism (cb : Collab) (_pos : String)
    (lst_candidate_lemma_keys : List String) (lst_candidate_similarities : List Score)
    (top_k_candidates : Nat) : List String × List Score :=
  if lst_candidate_lemma_keys.length = 1 then
    (lst_candidate_lemma_keys, lst_candidate_similarities)
  else
    let topk := workingSet lst_candidate_lemma_keys lst_candidate_similarities top_k_candidates
    (lst_candidate_lemma_keys,
      topk.foldl (fun acc p =>
        acc.set (List.indexOf p.1 lst_candidate_lemma_keys)
          (p.2 + (try_again_similarity cb (cb.lemma_key_to_synset_id p.1) : ℚ)))
        lst_candidate_similarities)

/-- Load-time failures of `load_coarse_sense_inventory_dataset`: a
record with fewer than two tab-separated fields
(`assert len(lst_items) >= 2`), or a synset id seen twice
(`assert synset_id not in dict_synset_id_to_csi_labels`). -/
inductive CSILoadError where
  | invalidRecord (fields : List String)
  | duplicateSenseId (id : String)
deriving DecidableEq

/-- Folding pass of `load_coarse_sense_inventory_dataset` (lines
189-198) over the pre-split records, accumulating the ordered
`(synset id, CSI labels)` entries. -/
def load_aux (offset_to_id : String → String) (acc : List (String × List String)) :
    List (List String) → Except CSILoadError (List (String × List String))
  | [] => Except.ok acc
  | items :: rest =>
    match items with
    | x :: y :: ys =>
      let synset_id := offset_to_id x
      if (acc.map Prod.fst).contains synset_id then
        Except.error (CSILoadError.duplicateSenseId synset_id)
      else load_aux offset_to_id (acc ++ [(synset_id, y :: ys)]) rest
    | _ => Except.error (CSILoadError.invalidRecord items)

/-- The inverted label-to-synsets mapping (lines 200-203): a synset id
belongs to a label's set exactly when some entry carries that id with
that label among its labels. -/
def invertCSI (entries : List (String × List String)) (label : String) : Finset String :=
  entries.foldl (fun acc e => if label ∈ e.2 then insert e.1 acc else acc) ∅

/-- `load_coarse_sense_inventory_dataset` (lines 186-205) over
pre-split records: on success, both the sense-id-to-labels entries and
the inverted label-to-synsets mapping. -/
def load_coarse_sense_inventory_dataset (offset_to_id : String → String)
    (records : List (List String)) :
    Except CSILoadError ((List (String × List String)) × (String → Finset String)) :=
  (load_aux offset_to_id [] records).map (fun e => (e, invertCSI e))

/-- Well-formedness of one pre-split record: at least two fields, the
condition of `assert len(lst_items) >= 2`. -/
def wellFormedRecord (items : List String) : Prop := 2 ≤ items.length

instance (items : List String) : Decidable (wellFormedRecord items) := by
  unfold wellFormedRecord
  infer_instance

/-- The canonical sense identifier a record maps to: the collaborator
translation of its first field. -/
def recordSenseId (offset_to_id : String → String) (items : List String) : String :=
  offset_to_id (items.headD "")

/-- The entry one well-formed record contributes. -/
def recordEntry (offset_to_id : String → String) (items : List String) :
    String × List String :=
  (recordSenseId offset_to_id items, items.tail)

end TryAgainMechanismWithCoarseSenseInventory

/-- The per-instance metric mapping of `BaseEvaluator.compute_metrics`:
keys `precision`, `recall`, `f1_score`, `accuracy`. -/
structure Metrics where
  precision : ℚ
  recall_score : ℚ
  f1_score : ℚ
  accuracy : ℚ
deriving DecidableEq

namespace BaseEvaluator

/-- `BaseEvaluator._iter_to_set`: label collections are compared as
sets (duplicates collapsed, order irrelevant). -/
def iter_to_set (inputs : List String) : Finset String := inputs.toFinset

/-- `BaseEvaluator.precision` (lines 31-38). -/
def precision (ground_truthes predictions : List String) : ℚ :=
  let numerator := (iter_to_set predictions) ∩ (iter_to_set ground_truthes)
  let denominator := iter_to_set predictions
  if denominator.card = 0 then 0
  else (numerator.card : ℚ) / (denominator.card : ℚ)

/-- `BaseEvaluator.recall` (lines 40-47). -/
def recall_score (ground_truthes predictions : List String) : ℚ :=
  let numerator := (iter_to_set predictions) ∩ (iter_to_set ground_truthes)
  let denominator := iter_to_set ground_truthes
  if denominator.card = 0 then 0
  else (numerator.card : ℚ) / (denominator.card : ℚ)

/-- `BaseEvaluator._calc_f1_score` (lines 49-53): Python's chained
`prec == recall == 0.0` holds exactly when both are zero. -/
def calc_f1_score (prec r : ℚ) : ℚ :=
  if prec = 0 ∧ r = 0 then 0 else 2 * prec * r / (prec + r)

/-- `BaseEvaluator.f1_score` (lines 55-58). -/
def f1_score (ground_truthes predictions : List String) : ℚ :=
  calc_f1_score (precision ground_truthes predictions) (recall_score ground_truthes predictions)

/-- `BaseEvaluator.accuracy` (lines 60-74): exact-set-match (subset)
accuracy. -/
def accuracy (ground_truthes predictions : List String) : ℚ :=
  if iter_to_set ground_truthes = iter_to_set predictions then 1 else 0

/-- `BaseEvaluator.compute_metrics` (lines 76-83). -/
def compute_metrics (ground_truthes predictions : List String) : Metrics :=
  { precision := precision ground_truthes predictions
    recall_score := recall_score ground_truthes predictions
    f1_score := f1_score ground_truthes predictions
    accuracy := accuracy ground_truthes predictions }

/-- `BaseEvaluator.macro_average` (lines 85-95) restricted to the four
default metric names: the fieldwise arithmetic mean. -/
def avgOfMetrics (l : List Metrics) : Metrics :=
  { precision := listMean (l.map Metrics.precision)
    recall_score := listMean (l.map Metrics.recall_score)
    f1_score := listMean (l.map Metrics.f1_score)
    accuracy := listMean (l.map Metrics.accuracy) }

end BaseEvaluator

namespace BaseEvaluatorByRaganatoAndMaru

/-- One metric record as appended per evaluated instance: the computed
metrics plus the singleton instance-to-predictions and
instance-to-ground-truths mappings attached in `__iter__`. -/
structure MetricRecord where
  m : Metrics
  predictions : List (String × List String)
  ground_truthes : List (String × List String)
deriving DecidableEq

/-- The group summary produced by
`BaseEvaluatorByRaganatoAndMaru.macro_average`: the naive fieldwise
means plus the corrected `_by_raganato` fields and the pooled
`_by_maru` fields. -/
structure RaganatoMetrics where
  naive : Metrics
  recall_by_raganato : ℚ
  f1_score_by_raganato : ℚ
  maru_precision : ℚ
  maru_recall : ℚ
  maru_f1_score : ℚ
deriving DecidableEq

/-- `BaseEvaluatorByRaganatoAndMaru.macro_average` (lines 112-143).
`maru` is the external `compute_macro_f1_score_by_maru` from
`_macro_metric.py` (not among the sources), applied to the pooled
ground-truth and prediction mappings of the group. -/
def avgByRaganato
    (maru : List (String × List String) → List (String × List String) → Metrics)
    (recs : List MetricRecord) : RaganatoMetrics :=
  let base := BaseEvaluator.avgOfMetrics (recs.map MetricRecord.m)
  let n : ℚ := (recs.length : ℚ)
  let recall_by := base.precision * n / n
  let mm := maru (recs.flatMap MetricRecord.ground_truthes) (recs.flatMap MetricRecord.predictions)
  { naive := base
    recall_by_raganato := recall_by
    f1_score_by_raganato := BaseEvaluator.calc_f1_score base.precision recall_by
    maru_precision := mm.precision
    maru_recall := mm.recall_score
    maru_f1_score := mm.f1_score }

end BaseEvaluatorByRaganatoAndMaru

namespace WSDTaskEvaluatorBase

open BaseEvaluatorByRaganatoAndMaru

/-- One record of the evaluation dataset: instance id, ground-truth
lemma keys, breakdown attribute values. -/
structure WSDInstance where
  id : String
  ground_truth_lemma_keys : List String
  attrs : List (String × String)

/-- Evaluator configuration: the `lemma`/`lexname` evaluation category
and the lexname translation collaborator. -/
structure Config where
  evaluation_category_is_lexname : Bool
  lemma_key_to_lexname : String → String

/-- `WSDTaskEvaluatorBase.compute_metrics` (lines 210-214): under the
`lexname` category both label collections are mapped to lexnames
first. -/
def instance_compute_metrics (cfg : Config) (ground_truthes predictions : List String) :
    Metrics :=
  if cfg.evaluation_category_is_lexname = true then
    BaseEvaluator.compute_metrics (ground_truthes.map cfg.lemma_key_to_lexname)
      (predictions.map cfg.lemma_key_to_lexname)
  else BaseEvaluator.compute_metrics ground_truthes predictions

/-- The metric record `__iter__` yields for one instance (lines
250-258), for a predictor called with the current `predict_kwargs`. -/
def instance_record {κ : Type} (cfg : Config) (predict : κ → WSDInstance → List String)
    (kw : κ) (inst : WSDInstance) : MetricRecord :=
  let preds := predict kw inst
  { m := instance_compute_metrics cfg inst.ground_truth_lemma_keys preds
    predictions := [(inst.id, preds)]
    ground_truthes := [(inst.id, inst.ground_truth_lemma_keys)] }

/-- `_get_attr_key_and_values` (lines 226-229): the concatenated
attribute names and the concatenated attribute values of the
instance. -/
def get_attr_key_and_values (set_attr_names : List String) (inst : WSDInstance) :
    String × String :=
  (String.intercalate "|" set_attr_names,
   String.intercalate "|" (set_attr_names.map
     (fun a => (((inst.attrs.find? (fun p => p.1 == a)).map Prod.snd).getD ""))))

/-- Append a record to the group of the given key, creating the group
at the end on first sight (defaultdict-of-list insertion order). -/
def addRecord (g : List (String × List MetricRecord)) (key : String) (r : MetricRecord) :
    List (String × List MetricRecord) :=
  match g with
  | [] => [(key, [r])]
  | (k2, rs) :: rest =>
    if k2 = key then (k2, rs ++ [r]) :: rest else (k2, rs) :: addRecord rest key r

/-- Append a record to the two-level breakdown structure
`dict_dict_results[grouper_attr][breakdown_value]`. -/
def addRecordNested (G : List (String × List (String × List MetricRecord)))
    (k1 k2 : String) (r : MetricRecord) :
    List (String × List (String × List MetricRecord)) :=
  match G with
  | [] => [(k1, addRecord [] k2 r)]
  | (g1, inner) :: rest =>
    if g1 = k1 then (g1, addRecord inner k2 r) :: rest
    else (g1, inner) :: addRecordNested rest k1 k2 r

/-- The nested output mapping of `evaluate` after
`macro_average_recursive`: the reserved `ALL` leaf plus one branch per
grouper attribute, each a mapping from breakdown value to averaged
metrics. -/
structure SummaryOutput where
  all : RaganatoMetrics
  breakdowns : List (String × List (String × RaganatoMetrics))

/-- The aggregation pass of `evaluate` (lines 268-287): every record
goes to `ALL` and to each configured breakdown group of the instance,
then every group is macro averaged. -/
def evaluateSummary {κ : Type} (cfg : Config)
    (maru : List (String × List String) → List (String × List String) → Metrics)
    (predict : κ → WSDInstance → List String)
    (breakdown_attributes : List (List String))
    (instances : List WSDInstance) (kw : κ) : SummaryOutput :=
  let recs := instances.map (instance_record cfg predict kw)
  let groups := instances.foldl (fun G inst =>
    breakdown_attributes.foldl (fun G2 names =>
      let kv := get_attr_key_and_values names inst
      addRecordNested G2 kv.1 kv.2 (instance_record cfg predict kw inst)) G) []
  { all := avgByRaganato maru recs
    breakdowns := groups.map (fun g => (g.1, g.2.map (fun b => (b.1, avgByRaganato maru b.2)))) }

/-- The aggregator state `evaluate` touches: the evaluation dataset and
the `predict_kwargs` attribute that `evaluate` overwrites with its
keyword arguments (line 274). -/
structure EvaluatorState (κ : Type) where
  instances : List WSDInstance
  predict_kwargs : κ

/-- `WSDTaskEvaluatorBase.evaluate` (lines 268-287) with its state
mutation made explicit: it stores the keyword arguments in
`predict_kwargs` and recomputes the whole summary from the dataset. -/
def evaluate {κ : Type} (cfg : Config)
    (maru : List (String × List String) → List (String × List String) → Metrics)
    (predict : κ → WSDInstance → List String)
    (breakdown_attributes : List (List String))
    (s : EvaluatorState κ) (kw : κ) : EvaluatorState κ × SummaryOutput :=
  let s2 : EvaluatorState κ := { s with predict_kwargs := kw }
  (s2, evaluateSummary cfg maru predict breakdown_attributes s2.instances s2.predict_kwargs)

end WSDTaskEvaluatorBase

/-! Concrete example collaborators, used to instantiate the general
theorems below at computable inputs. -/

/-- A concrete relation-walk configuration: the default flag settings of
`TryAgainMechanism.__init__`. -/
def exampleConfig : TryAgainMechanism.Config :=
  { exclude_common_semantically_related_synsets := true
    lookup_first_lemma_sense_only := true
    average_similarity_in_synset := false
    exclude_oneselves_for_noun_and_verb := true
    do_not_fix_synset_degeneration_bug := true }

/-- A concrete relation-walk collaborator bundle on which every lookup
is computable; all lemma keys resolve to the single synset `s1`. -/
def exampleCollab : TryAgainMechanism.Collab :=
  { lemma_key_to_synset_id := fun _ => "s1"
    gloss_extend := fun t => if t = "a" then {"p", "q"} else {"q", "r"}
    synset_id_to_lexname := fun _ => "noun.act"
    get_lexname_synsets := fun _ => ∅
    synset_to_lemma_keys := fun _ => []
    query_similarity := fun _ => 0 }

/-- A concrete CSI collaborator bundle with no CSI entries. -/
def exampleCollabCSI : TryAgainMechanismWithCoarseSenseInventory.Collab :=
  { lemma_key_to_synset_id := fun _ => "s1"
    synset_id_to_csi_labels := fun _ => none
    csi_label_to_synsets := fun _ => ∅
    synset_to_lemma_keys := fun _ => []
    query_similarity := fun _ => 0 }

/-- A concrete stand-in for the external maru metric collaborator. -/
def exampleMaru : List (String × List String) → List (String × List String) → Metrics :=
  fun _ _ => { precision := 0, recall_score := 0, f1_score := 0, accuracy := 0 }

/-- A concrete metric record with perfect scores. -/
def exampleRecord : BaseEvaluatorByRaganatoAndMaru.MetricRecord :=
  { m := { precision := 1, recall_score := 1, f1_score := 1, accuracy := 1 }
    predictions := [("d000", ["k1"])]
    ground_truthes := [("d000", ["k1"])] }

/-! Helper lemmas about the stable sort, the index-targeted list
updates, and folded set operations. -/

theorem insertDesc_perm (p : String × Score) (l : List (String × Score)) :
    (insertDesc p l).Perm (p :: l) := by
  induction l with
  | nil => simp [insertDesc]
  | cons q rest ih =>
    by_cases h : p.2 < q.2
    · simp only [insertDesc, if_pos h]
      exact (ih.cons q).trans (List.Perm.swap p q rest)
    · simp [insertDesc, if_neg h]

theorem sortByScoreDesc_perm (l : List (String × Score)) :
    (sortByScoreDesc l).Perm l := by
  induction l with
  | nil => simp [sortByScoreDesc]
  | cons p rest ih =>
    exact (insertDesc_perm p (sortByScoreDesc rest)).trans (ih.cons p)

theorem mem_zip_of_mem_workingSet {keys : List String} {sims : List Score} {k : Nat}
    {p : String × Score} (h : p ∈ workingSet keys sims k) : p ∈ keys.zip sims :=
  (sortByScoreDesc_perm (keys.zip sims)).mem_iff.mp (List.take_subset k _ h)

theorem key_mem_of_mem_workingSet {keys : List String} {sims : List Score} {k : Nat}
    {p : String × Score} (h : p ∈ workingSet keys sims k) : p.1 ∈ keys :=
  (List.of_mem_zip (mem_zip_of_mem_workingSet h)).1

theorem foldl_set_length {α : Type} (g : α → Nat) (v : α → Score) (tk : List α)
    (sims : List Score) :
    (tk.foldl (fun acc p => acc.set (g p) (v p)) sims).length = sims.length := by
  induction tk generalizing sims with
  | nil => rfl
  | cons p rest ih => simp [ih, List.length_set]

theorem foldl_set_getD_ne {α : Type} (g : α → Nat) (v : α → Score) (tk : List α)
    (sims : List Score) (i : Nat) (h : ∀ p ∈ tk, g p ≠ i) :
    (tk.foldl (fun acc p => acc.set (g p) (v p)) sims).getD i 0 = sims.getD i 0 := by
  induction tk generalizing sims with
  | nil => rfl
  | cons p rest ih =>
    simp only [List.foldl_cons]
    rw [ih _ (fun q hq => h q (List.mem_cons_of_mem p hq))]
    rw [List.getD_eq_getElem?_getD, List.getD_eq_getElem?_getD,
      List.getElem?_set_ne (h p (List.mem_cons_self p rest))]

theorem getD_set_ne (sims : List Score) (i j : Nat) (v : Score) (h : i ≠ j) :
    ((sims.set i v).getD j 0) = sims.getD j 0 := by
  rw [List.getD_eq_getElem?_getD, List.getD_eq_getElem?_getD, List.getElem?_set_ne h]

theorem getLastD_mem_of_ne_nil {l : List (String × Score)} (h : l ≠ []) :
    l.getLastD ("", 0) ∈ l := by
  rw [List.getLastD_eq_getLast?, List.getLast?_eq_getLast l h]
  exact List.getLast_mem h

theorem subset_foldl_union (l : List (Finset String)) (a : Finset String) :
    ∀ b : Finset String, a ⊆ b → a ⊆ l.foldl (fun s t => s ∪ t) b := by
  induction l with
  | nil => exact fun b h => h
  | cons E rest ih =>
    intro b h
    exact ih (b ∪ E) (h.trans Finset.subset_union_left)

theorem mem_foldl_inter (l : List (Finset String)) (x : String) :
    ∀ a : Finset String,
      (x ∈ l.foldl (fun s t => s ∩ t) a ↔ x ∈ a ∧ ∀ t ∈ l, x ∈ t) := by
  induction l with
  | nil => simp
  | cons E rest ih =>
    intro a
    simp only [List.foldl_cons, ih (a ∩ E), Finset.mem_inter, List.mem_cons]
    constructor
    · rintro ⟨⟨hx, hE⟩, hrest⟩
      exact ⟨hx, fun t ht => ht.elim (fun h => h ▸ hE) (hrest t)⟩
    · rintro ⟨hx, hall⟩
      exact ⟨⟨hx, hall E (Or.inl rfl)⟩, fun t ht => hall t (Or.inr ht)⟩

theorem commonSet_eq_interAll (E : Finset String) (rest : List (Finset String)) :
    TryAgainMechanism.commonSet (E :: rest) = TryAgainMechanism.interAll (E :: rest) := by
  unfold TryAgainMechanism.commonSet TryAgainMechanism.interAll
  simp only [List.foldl_cons]
  have hU : E ⊆ rest.foldl (fun s t => s ∪ t) (∅ ∪ E) :=
    subset_foldl_union rest E (∅ ∪ E) (by simp)
  congr 1
  exact Finset.inter_eq_right.mpr hU

theorem mem_interAll (E : Finset String) (rest : List (Finset String)) (x : String) :
    x ∈ TryAgainMechanism.interAll (E :: rest) ↔ ∀ t ∈ E :: rest, x ∈ t := by
  unfold TryAgainMechanism.interAll
  rw [mem_foldl_inter rest x E]
  simp only [List.mem_cons]
  constructor
  · rintro ⟨hE, hrest⟩
    exact fun t ht => ht.elim (fun h => h ▸ hE) (hrest t)
  · rintro hall
    exact ⟨hall E (Or.inl rfl), fun t ht => hall t (Or.inr ht)⟩

/-! Helper lemmas for the CSI table loader. -/

namespace TryAgainMechanismWithCoarseSenseInventory

theorem mem_invertCSI_aux (entries : List (String × List String)) (label : String)
    (x : String) :
    ∀ a : Finset String,
      (x ∈ entries.foldl (fun acc e => if label ∈ e.2 then insert e.1 acc else acc) a
        ↔ x ∈ a ∨ ∃ e ∈ entries, e.1 = x ∧ label ∈ e.2) := by
  induction entries with
  | nil => simp
  | cons e rest ih =>
    intro a
    simp only [List.foldl_cons, ih, List.mem_cons]
    by_cases h : label ∈ e.2
    · simp only [if_pos h, Finset.mem_insert]
      constructor
      · rintro (⟨hx | hx⟩ | ⟨e2, he2, hx, hl⟩)
        · exact Or.inr ⟨e, Or.inl rfl, hx.symm, h⟩
        · exact Or.inl hx
        · exact Or.inr ⟨e2, Or.inr he2, hx, hl⟩
      · rintro (hx | ⟨e2, (rfl | he2), hx, hl⟩)
        · exact Or.inl (Or.inr hx)
        · exact Or.inl (Or.inl hx.symm)
        · exact Or.inr ⟨e2, he2, hx, hl⟩
    · simp only [if_neg h]
      constructor
      · rintro (hx | ⟨e2, he2, hx, hl⟩)
        · exact Or.inl hx
        · exact Or.inr ⟨e2, Or.inr he2, hx, hl⟩
      · rintro (hx | ⟨e2, (rfl | he2), hx, hl⟩)
        · exact Or.inl hx
        · exact absurd hl h
        · exact Or.inr ⟨e2, he2, hx, hl⟩

theorem mem_invertCSI (entries : List (String × List String)) (label : String)
    (x : String) :
    x ∈ invertCSI entries label ↔ ∃ e ∈ entries, e.1 = x ∧ label ∈ e.2 := by
  unfold invertCSI
  rw [mem_invertCSI_aux entries label x ∅]
  simp

theorem load_aux_ok (f : String → String) (records : List (List String)) :
    ∀ acc : List (String × List String),
      (∀ r ∈ records, wellFormedRecord r) →
      ((acc.map Prod.fst) ++ records.map (recordSenseId f)).Nodup →
      load_aux f acc records = Except.ok (acc ++ records.map (recordEntry f)) := by
  induction records with
  | nil => intro acc _ _; simp [load_aux]
  | cons items rest ih =>
    intro acc h1 h2
    match items, h1 items (List.mem_cons_self items rest) with
    | x :: y :: ys, _ =>
      have hsid : recordSenseId f (x :: y :: ys) = f x := rfl
      have hnotmem : f x ∉ acc.map Prod.fst := by
        rw [List.map_cons, hsid] at h2
        have hd := (List.nodup_append.mp h2).2.2
        exact fun hmem => hd hmem (List.mem_cons_self _ _)
      simp only [load_aux]
      rw [if_neg (by simp [hnotmem])]
      rw [ih (acc ++ [(f x, y :: ys)])
        (fun r hr => h1 r (List.mem_cons_of_mem _ hr))
        (by simpa [hsid, List.append_assoc] using h2)]
      simp [recordEntry, recordSenseId]

theorem except_map_isOk {e : Type} {a : Type} {b : Type} (g : a → b) (x : Except e a) :
    (x.map g).isOk = x.isOk := by
  cases x <;> rfl

theorem load_aux_isOk (f : String → String) (records : List (List String)) :
    ∀ acc : List (String × List String),
      (acc.map Prod.fst).Nodup →
      ((load_aux f acc records).isOk = true
        ↔ (∀ r ∈ records, wellFormedRecord r)
          ∧ ((acc.map Prod.fst) ++ records.map (recordSenseId f)).Nodup) := by
  induction records with
  | nil =>
    intro acc hacc
    simpa [load_aux, Except.isOk, Except.toBool] using hacc
  | cons items rest ih =>
    intro acc hacc
    match items with
    | [] =>
      simp [load_aux, Except.isOk, Except.toBool, wellFormedRecord]
    | [x] =>
      simp [load_aux, Except.isOk, Except.toBool, wellFormedRecord]
    | x :: y :: ys =>
      simp only [load_aux]
      by_cases hmem : f x ∈ acc.map Prod.fst
      · rw [if_pos (by simp [hmem])]
        constructor
        · intro h
          exact absurd h (by simp [Except.isOk, Except.toBool])
        · rintro ⟨_, hn⟩
          rw [List.map_cons] at hn
          exact absurd (List.mem_cons_self _ _) ((List.nodup_append.mp hn).2.2 hmem)
      · rw [if_neg (by simp [hmem])]
        have hacc2 : ((acc ++ [(f x, y :: ys)]).map Prod.fst).Nodup := by
          rw [List.map_append, List.nodup_append]
          refine ⟨hacc, by simp, ?_⟩
          intro a ha
          simp only [List.map_cons, List.map_nil, List.mem_singleton]
          intro hax
          subst hax
          exact hmem ha
        rw [ih (acc ++ [(f x, y :: ys)]) hacc2]
        constructor
        · rintro ⟨hwf, hn⟩
          refine ⟨?_, ?_⟩
          · intro r hr
            rcases List.mem_cons.mp hr with h | h
            · subst h
              simp [wellFormedRecord]
            · exact hwf r h
          · rw [List.map_cons]
            rw [List.map_append] at hn
            simpa [List.append_assoc, recordSenseId] using hn
        · rintro ⟨hwf, hn⟩
          refine ⟨fun r hr => hwf r (List.mem_cons_of_mem _ hr), ?_⟩
          rw [List.map_append]
          rw [List.map_cons] at hn
          simpa [List.append_assoc, recordSenseId] using hn

end TryAgainMechanismWithCoarseSenseInventory

/-! Helper lemmas about the metric functions. -/

theorem precision_bounds (gt preds : List String) :
    0 ≤ BaseEvaluator.precision gt preds ∧ BaseEvaluator.precision gt preds ≤ 1 := by
  unfold BaseEvaluator.precision
  dsimp only
  split_ifs with h
  · norm_num
  · have hpos : (0 : ℚ) < ((BaseEvaluator.iter_to_set preds).card : ℚ) := by
      exact_mod_cast Nat.pos_of_ne_zero h
    refine ⟨by positivity, ?_⟩
    rw [div_le_one hpos]
    exact_mod_cast Finset.card_le_card Finset.inter_subset_left

theorem recall_bounds (gt preds : List String) :
    0 ≤ BaseEvaluator.recall_score gt preds ∧ BaseEvaluator.recall_score gt preds ≤ 1 := by
  unfold BaseEvaluator.recall_score
  dsimp only
  split_ifs with h
  · norm_num
  · have hpos : (0 : ℚ) < ((BaseEvaluator.iter_to_set gt).card : ℚ) := by
      exact_mod_cast Nat.pos_of_ne_zero h
    refine ⟨by positivity, ?_⟩
    rw [div_le_one hpos]
    exact_mod_cast Finset.card_le_card Finset.inter_subset_right

theorem calc_f1_score_bounds {p r : ℚ} (hp0 : 0 ≤ p) (hp1 : p ≤ 1) (hr0 : 0 ≤ r)
    (hr1 : r ≤ 1) :
    0 ≤ BaseEvaluator.calc_f1_score p r ∧ BaseEvaluator.calc_f1_score p r ≤ 1 := by
  unfold BaseEvaluator.calc_f1_score
  split_ifs with h
  · norm_num
  · have hpos : 0 < p + r := by
      rcases lt_or_eq_of_le hp0 with hp | hp
      · linarith
      · rcases lt_or_eq_of_le hr0 with hr | hr
        · linarith
        · exact absurd ⟨hp.symm, hr.symm⟩ h
    refine ⟨by positivity, ?_⟩
    rw [div_le_one hpos]
    nlinarith [mul_nonneg hp0 (sub_nonneg.mpr hr1), mul_nonneg hr0 (sub_nonneg.mpr hp1)]

theorem calc_f1_score_self (p : ℚ) : BaseEvaluator.calc_f1_score p p = p := by
  unfold BaseEvaluator.calc_f1_score
  split_ifs with h
  · exact h.1.symm
  · have hp : p ≠ 0 := fun h0 => h ⟨h0, h0⟩
    rw [div_eq_iff (by intro hc; exact hp (by linarith))]
    ring

theorem length_cast_ne_zero {α : Type} {l : List α} (h : l ≠ []) :
    ((l.length : ℚ)) ≠ 0 := by
  rw [Nat.cast_ne_zero]
  simpa [List.length_eq_zero] using h

/-! The claims. -/

/-- C4: for every non-empty group of metric records, the field
`recall_by_raganato` of the finalized corrected metrics equals the
group's macro-averaged precision exactly. -/
theorem C4_recall_by_raganato_eq_precision
    (maru : List (String × List String) → List (String × List String) → Metrics)
    (recs : List BaseEvaluatorByRaganatoAndMaru.MetricRecord) (h : recs ≠ []) :
    (BaseEvaluatorByRaganatoAndMaru.avgByRaganato maru recs).recall_by_raganato
      = (BaseEvaluator.avgOfMetrics
          (recs.map BaseEvaluatorByRaganatoAndMaru.MetricRecord.m)).precision := by
  unfold BaseEvaluatorByRaganatoAndMaru.avgByRaganato
  dsimp only
  rw [mul_div_cancel_right₀ _ (length_cast_ne_zero h)]

/-- Witness for C4 at a concrete one-record group. -/
theorem C4_recall_by_raganato_eq_precision_witness :
    ([exampleRecord] ≠ [])
    ∧ (BaseEvaluatorByRaganatoAndMaru.avgByRaganato exampleMaru [exampleRecord]).recall_by_raganato
        = (BaseEvaluator.avgOfMetrics
            ([exampleRecord].map BaseEvaluatorByRaganatoAndMaru.MetricRecord.m)).precision :=
  ⟨by simp, C4_recall_by_raganato_eq_precision exampleMaru [exampleRecord] (by simp)⟩

/-- C9: for every non-empty group, the corrected `f1_score_by_raganato`
equals the group's macro-averaged precision exactly, since the harmonic
mean of the precision with itself collapses to it. -/
theorem C9_f1_by_raganato_eq_precision
    (maru : List (String × List String) → List (String × List String) → Metrics)
    (recs : List BaseEvaluatorByRaganatoAndMaru.MetricRecord) (h : recs ≠ []) :
    (BaseEvaluatorByRaganatoAndMaru.avgByRaganato maru recs).f1_score_by_raganato
      = (BaseEvaluator.avgOfMetrics
          (recs.map BaseEvaluatorByRaganatoAndMaru.MetricRecord.m)).precision := by
  unfold BaseEvaluatorByRaganatoAndMaru.avgByRaganato
  dsimp only
  rw [mul_div_cancel_right₀ _ (length_cast_ne_zero h)]
  exact calc_f1_score_self _

/-- Witness for C9 at a concrete one-record group. -/
theorem C9_f1_by_raganato_eq_precision_witness :
    ([exampleRecord] ≠ [])
    ∧ (BaseEvaluatorByRaganatoAndMaru.avgByRaganato exampleMaru [exampleRecord]).f1_score_by_raganato
        = (BaseEvaluator.avgOfMetrics
            ([exampleRecord].map BaseEvaluatorByRaganatoAndMaru.MetricRecord.m)).precision :=
  ⟨by simp, C9_f1_by_raganato_eq_precision exampleMaru [exampleRecord] (by simp)⟩

/-- C5: every metric computed by `compute_metrics` lies in the unit
interval, and the accuracy is one exactly when the two label
collections agree as sets. -/
theorem C5_metric_ranges (gt preds : List String) :
    (0 ≤ (BaseEvaluator.compute_metrics gt preds).precision
      ∧ (BaseEvaluator.compute_metrics gt preds).precision ≤ 1)
    ∧ (0 ≤ (BaseEvaluator.compute_metrics gt preds).recall_score
      ∧ (BaseEvaluator.compute_metrics gt preds).recall_score ≤ 1)
    ∧ (0 ≤ (BaseEvaluator.compute_metrics gt preds).f1_score
      ∧ (BaseEvaluator.compute_metrics gt preds).f1_score ≤ 1)
    ∧ (0 ≤ (BaseEvaluator.compute_metrics gt preds).accuracy
      ∧ (BaseEvaluator.compute_metrics gt preds).accuracy ≤ 1)
    ∧ ((BaseEvaluator.compute_metrics gt preds).accuracy = 1
      ↔ BaseEvaluator.iter_to_set gt = BaseEvaluator.iter_to_set preds) := by
  refine ⟨precision_bounds gt preds, recall_bounds gt preds, ?_, ?_, ?_⟩
  · have hp := precision_bounds gt preds
    have hr := recall_bounds gt preds
    exact calc_f1_score_bounds hp.1 hp.2 hr.1 hr.2
  · show (0 ≤ BaseEvaluator.accuracy gt preds ∧ BaseEvaluator.accuracy gt preds ≤ 1)
    unfold BaseEvaluator.accuracy
    split_ifs <;> norm_num
  · show (BaseEvaluator.accuracy gt preds = 1 ↔ _)
    unfold BaseEvaluator.accuracy
    split_ifs with h
    · simpa using h
    · simpa using h

/-- C7: the F1 computation is total on nonnegative inputs: its guard
`prec == recall == 0.0` holds exactly when the denominator `P + R`
vanishes, it returns zero there, and the division branch only runs with
a nonzero denominator. -/
theorem C7_f1_no_division_by_zero (P R : ℚ) (hP : 0 ≤ P) (hR : 0 ≤ R) :
    ((P = 0 ∧ R = 0) ↔ P + R = 0)
    ∧ (P + R = 0 → BaseEvaluator.calc_f1_score P R = 0)
    ∧ (P + R ≠ 0 → BaseEvaluator.calc_f1_score P R = 2 * P * R / (P + R)) := by
  have hiff := add_eq_zero_iff_of_nonneg hP hR
  refine ⟨hiff.symm, ?_, ?_⟩
  · intro h0
    unfold BaseEvaluator.calc_f1_score
    rw [if_pos (hiff.mp h0)]
  · intro hne
    unfold BaseEvaluator.calc_f1_score
    rw [if_neg (fun hc => hne (hiff.mpr hc))]

/-- Witness for C7 at `P = 1`, `R = 0`. -/
theorem C7_f1_no_division_by_zero_witness :
    ((0 : ℚ) ≤ 1) ∧ ((0 : ℚ) ≤ 0)
    ∧ ((((1 : ℚ) = 0 ∧ (0 : ℚ) = 0) ↔ (1 : ℚ) + 0 = 0)
      ∧ ((1 : ℚ) + 0 = 0 → BaseEvaluator.calc_f1_score 1 0 = 0)
      ∧ ((1 : ℚ) + 0 ≠ 0 → BaseEvaluator.calc_f1_score 1 0 = 2 * 1 * 0 / (1 + 0))) :=
  ⟨by norm_num, by norm_num, C7_f1_no_division_by_zero 1 0 (by norm_num) (by norm_num)⟩

/-- C10: on two empty label collections, `compute_metrics` returns
accuracy one but precision, recall and F1 zero; in particular accuracy
one does not entail F1 one. -/
theorem C10_empty_collections :
    BaseEvaluator.compute_metrics [] []
        = { precision := 0, recall_score := 0, f1_score := 0, accuracy := 1 }
    ∧ (BaseEvaluator.compute_metrics [] []).accuracy = 1
    ∧ (BaseEvaluator.compute_metrics [] []).f1_score ≠ 1 := by
  refine ⟨by decide, by decide, by decide⟩

/-- C6: `evaluate` run twice from the same aggregator state with the
same keyword arguments and the same pure collaborators produces the
same nested summary, and the second run leaves the state where the
first put it. -/
theorem C6_evaluate_idempotent {κ : Type} (cfg : WSDTaskEvaluatorBase.Config)
    (maru : List (String × List String) → List (String × List String) → Metrics)
    (predict : κ → WSDTaskEvaluatorBase.WSDInstance → List String)
    (breakdown_attributes : List (List String))
    (s : WSDTaskEvaluatorBase.EvaluatorState κ) (kw : κ) :
    (WSDTaskEvaluatorBase.evaluate cfg maru predict breakdown_attributes
        (WSDTaskEvaluatorBase.evaluate cfg maru predict breakdown_attributes s kw).1 kw).2
      = (WSDTaskEvaluatorBase.evaluate cfg maru predict breakdown_attributes s kw).2
    ∧ (WSDTaskEvaluatorBase.evaluate cfg maru predict breakdown_attributes
        (WSDTaskEvaluatorBase.evaluate cfg maru predict breakdown_attributes s kw).1 kw).1
      = (WSDTaskEvaluatorBase.evaluate cfg maru predict breakdown_attributes s kw).1 :=
  ⟨rfl, rfl⟩

/-- C3: under the exclusion flag with more than one candidate synset,
the subtracted set `common = (union of all E(s)) ∩ (intersection of all
E(s))` equals the plain intersection of all expansion sets, i.e.
exactly the synsets related to every candidate; with the flag unset or
a single candidate synset no subtraction occurs. -/
theorem C3_common_subtraction (cfg : TryAgainMechanism.Config)
    (cb : TryAgainMechanism.Collab) (candIds : List String) (s s2 x : String)
    (hflag : cfg.exclude_common_semantically_related_synsets = true)
    (hlen : 1 < candIds.length) :
    TryAgainMechanism.expansionBase cfg cb candIds s
        = cb.gloss_extend s \ TryAgainMechanism.commonSet (candIds.map cb.gloss_extend)
    ∧ TryAgainMechanism.commonSet (candIds.map cb.gloss_extend)
        = TryAgainMechanism.interAll (candIds.map cb.gloss_extend)
    ∧ (x ∈ TryAgainMechanism.commonSet (candIds.map cb.gloss_extend)
        ↔ ∀ t ∈ candIds, x ∈ cb.gloss_extend t)
    ∧ TryAgainMechanism.expansionBase
        { cfg with exclude_common_semantically_related_synsets := false } cb candIds s
        = cb.gloss_extend s
    ∧ TryAgainMechanism.expansionBase cfg cb [s2] s = cb.gloss_extend s := by
  obtain ⟨E, rest, hER⟩ : ∃ E rest, candIds.map cb.gloss_extend = E :: rest := by
    cases h : candIds.map cb.gloss_extend with
    | nil =>
      rw [List.map_eq_nil_iff] at h
      subst h
      simp at hlen
    | cons E rest => exact ⟨E, rest, rfl⟩
  refine ⟨?_, ?_, ?_, ?_, ?_⟩
  · unfold TryAgainMechanism.expansionBase
    rw [if_pos ⟨hflag, hlen⟩]
  · rw [hER]
    exact commonSet_eq_interAll E rest
  · rw [hER, commonSet_eq_interAll E rest, mem_interAll E rest x, ← hER]
    exact List.forall_mem_map
  · unfold TryAgainMechanism.expansionBase
    rw [if_neg]
    simp
  · unfold TryAgainMechanism.expansionBase
    rw [if_neg]
    simp

/-- Witness for C3 on a concrete two-candidate input: the common set of
the expansions of `a` and `b` is the shared synset `q`. -/
theorem C3_common_subtraction_witness :
    (exampleConfig.exclude_common_semantically_related_synsets = true)
    ∧ (1 < (["a", "b"] : List String).length)
    ∧ (TryAgainMechanism.expansionBase exampleConfig exampleCollab ["a", "b"] "a"
          = exampleCollab.gloss_extend "a"
            \ TryAgainMechanism.commonSet ((["a", "b"] : List String).map exampleCollab.gloss_extend)
      ∧ TryAgainMechanism.commonSet ((["a", "b"] : List String).map exampleCollab.gloss_extend)
          = TryAgainMechanism.interAll ((["a", "b"] : List String).map exampleCollab.gloss_extend)
      ∧ ("q" ∈ TryAgainMechanism.commonSet ((["a", "b"] : List String).map exampleCollab.gloss_extend)
          ↔ ∀ t ∈ (["a", "b"] : List String), "q" ∈ exampleCollab.gloss_extend t)
      ∧ TryAgainMechanism.expansionBase
          { exampleConfig with exclude_common_semantically_related_synsets := false }
          exampleCollab ["a", "b"] "a"
          = exampleCollab.gloss_extend "a"
      ∧ TryAgainMechanism.expansionBase exampleConfig exampleCollab ["b"] "a"
          = exampleCollab.gloss_extend "a") :=
  ⟨rfl, by decide,
    C3_common_subtraction exampleConfig exampleCollab ["a", "b"] "a" "b" "q" rfl (by decide)⟩

/-- C8 counterexample: a duplicate-free file whose single record has
only one field makes the load fail, so failure is not equivalent to two
lines sharing a sense identifier. -/
theorem C8_counterexample_malformed_record :
    TryAgainMechanismWithCoarseSenseInventory.load_coarse_sense_inventory_dataset id [["x"]]
        = Except.error
            (TryAgainMechanismWithCoarseSenseInventory.CSILoadError.invalidRecord ["x"])
    ∧ (([["x"]] : List (List String)).map
        (TryAgainMechanismWithCoarseSenseInventory.recordSenseId id)).Nodup :=
  ⟨rfl, by decide⟩

/-- C8 (amended): the CSI load succeeds exactly on files whose records
all carry at least two fields and map to pairwise distinct sense
identifiers; on success it returns the ordered entry list together with
its inverted label-to-synsets mapping. -/
theorem C8_load_characterisation (f : String → String) (records : List (List String))
    (h1 : ∀ r ∈ records, TryAgainMechanismWithCoarseSenseInventory.wellFormedRecord r)
    (h2 : (records.map (TryAgainMechanismWithCoarseSenseInventory.recordSenseId f)).Nodup) :
    TryAgainMechanismWithCoarseSenseInventory.load_coarse_sense_inventory_dataset f records
        = Except.ok
            (records.map (TryAgainMechanismWithCoarseSenseInventory.recordEntry f),
             TryAgainMechanismWithCoarseSenseInventory.invertCSI
               (records.map (TryAgainMechanismWithCoarseSenseInventory.recordEntry f)))
    ∧ (∀ records2 : List (List String),
        ((TryAgainMechanismWithCoarseSenseInventory.load_coarse_sense_inventory_dataset
            f records2).isOk = true
          ↔ (∀ r ∈ records2, TryAgainMechanismWithCoarseSenseInventory.wellFormedRecord r)
            ∧ (records2.map
                (TryAgainMechanismWithCoarseSenseInventory.recordSenseId f)).Nodup))
    ∧ (∀ lab x2 : String,
        x2 ∈ TryAgainMechanismWithCoarseSenseInventory.invertCSI
            (records.map (TryAgainMechanismWithCoarseSenseInventory.recordEntry f)) lab
          ↔ ∃ e ∈ records.map (TryAgainMechanismWithCoarseSenseInventory.recordEntry f),
              e.1 = x2 ∧ lab ∈ e.2) := by
  refine ⟨?_, ?_, ?_⟩
  · unfold TryAgainMechanismWithCoarseSenseInventory.load_coarse_sense_inventory_dataset
    rw [TryAgainMechanismWithCoarseSenseInventory.load_aux_ok f records []
      h1 (by simpa using h2)]
    simp [Except.map]
  · intro records2
    unfold TryAgainMechanismWithCoarseSenseInventory.load_coarse_sense_inventory_dataset
    rw [TryAgainMechanismWithCoarseSenseInventory.except_map_isOk,
      TryAgainMechanismWithCoarseSenseInventory.load_aux_isOk f records2 [] (by simp)]
    simp
  · intro lab x2
    exact TryAgainMechanismWithCoarseSenseInventory.mem_invertCSI _ lab x2

/-- Witness for C8 on a concrete well-formed duplicate-free two-line
file. -/
theorem C8_load_characterisation_witness :
    (∀ r ∈ ([["a", "X"], ["b", "Y"]] : List (List String)),
      TryAgainMechanismWithCoarseSenseInventory.wellFormedRecord r)
    ∧ (([["a", "X"], ["b", "Y"]] : List (List String)).map
        (TryAgainMechanismWithCoarseSenseInventory.recordSenseId id)).Nodup
    ∧ TryAgainMechanismWithCoarseSenseInventory.load_coarse_sense_inventory_dataset id
        [["a", "X"], ["b", "Y"]]
        = Except.ok
            (([["a", "X"], ["b", "Y"]] : List (List String)).map
              (TryAgainMechanismWithCoarseSenseInventory.recordEntry id),
             TryAgainMechanismWithCoarseSenseInventory.invertCSI
               (([["a", "X"], ["b", "Y"]] : List (List String)).map
                 (TryAgainMechanismWithCoarseSenseInventory.recordEntry id))) :=
  ⟨by decide, by decide,
    (C8_load_characterisation id [["a", "X"], ["b", "Y"]] (by decide) (by decide)).1⟩

/-! Frame lemmas for the two try-again variants, used by the
frame-effect claim. -/

theorem fold_update_frame (keys : List String) (tk : List (String × Score))
    (v : String × Score → Score) (sims : List Score)
    (hmem : ∀ p ∈ tk, p.1 ∈ keys) (i : Nat) (hi : i < keys.length)
    (hnot : keys.getD i "" ∉ tk.map Prod.fst) :
    (tk.foldl (fun acc p => acc.set (List.indexOf p.1 keys) (v p)) sims).getD i 0
      = sims.getD i 0 := by
  apply foldl_set_getD_ne
  intro p hp heq
  apply hnot
  have h1 : List.indexOf p.1 keys < keys.length := List.indexOf_lt_length.mpr (hmem p hp)
  rw [← heq, List.getD_eq_getElem?_getD, List.getElem?_eq_getElem h1]
  simp only [Option.getD_some]
  rw [List.getElem_indexOf h1]
  exact List.mem_map_of_mem _ hp

theorem relation_walk_frame (cfg : TryAgainMechanism.Config)
    (cb : TryAgainMechanism.Collab) (pos : String) (keys : List String)
    (sims : List Score) (k : Nat) :
    (TryAgainMechanism.try_again_mechanism cfg cb pos keys sims k).1 = keys
    ∧ (TryAgainMechanism.try_again_mechanism cfg cb pos keys sims k).2.length = sims.length
    ∧ ∀ i, i < keys.length →
        keys.getD i "" ∉ (workingSet keys sims k).map Prod.fst →
        (TryAgainMechanism.try_again_mechanism cfg cb pos keys sims k).2.getD i 0
          = sims.getD i 0 := by
  simp only [TryAgainMechanism.try_again_mechanism]
  split_ifs with h1 h2
  · exact ⟨rfl, rfl, fun i _ _ => rfl⟩
  · refine ⟨rfl, by simp [List.length_set], ?_⟩
    intro i hi hnot
    have hWne : workingSet keys sims k ≠ [] := by
      intro h0
      rw [h0] at h2
      simp at h2
    have hleast := getLastD_mem_of_ne_nil hWne
    have hkmem : ((workingSet keys sims k).getLastD ("", 0)).1 ∈ keys :=
      key_mem_of_mem_workingSet hleast
    have hidx_lt : List.indexOf ((workingSet keys sims k).getLastD ("", 0)).1 keys
        < keys.length := List.indexOf_lt_length.mpr hkmem
    have hne_idx : List.indexOf ((workingSet keys sims k).getLastD ("", 0)).1 keys ≠ i := by
      intro heq
      apply hnot
      rw [← heq, List.getD_eq_getElem?_getD, List.getElem?_eq_getElem hidx_lt]
      simp only [Option.getD_some]
      rw [List.getElem_indexOf hidx_lt]
      exact List.mem_map_of_mem _ hleast
    exact getD_set_ne sims _ i _ hne_idx
  · refine ⟨rfl, foldl_set_length _ _ _ _, ?_⟩
    intro i hi hnot
    exact fold_update_frame keys _ _ sims
      (fun p hp => key_mem_of_mem_workingSet hp) i hi hnot

theorem csi_frame (ccb : TryAgainMechanismWithCoarseSenseInventory.Collab)
    (pos : String) (keys : List String) (sims : List Score) (k : Nat) :
    (TryAgainMechanismWithCoarseSenseInventory.try_again_mechanism ccb pos keys sims k).1
        = keys
    ∧ (TryAgainMechanismWithCoarseSenseInventory.try_again_mechanism
          ccb pos keys sims k).2.length = sims.length
    ∧ ∀ i, i < keys.length →
        keys.getD i "" ∉ (workingSet keys sims k).map Prod.fst →
        (TryAgainMechanismWithCoarseSenseInventory.try_again_mechanism
            ccb pos keys sims k).2.getD i 0 = sims.getD i 0 := by
  simp only [TryAgainMechanismWithCoarseSenseInventory.try_again_mechanism]
  split_ifs with h1
  · exact ⟨rfl, rfl, fun i _ _ => rfl⟩
  · refine ⟨rfl, foldl_set_length _ _ _ _, ?_⟩
    intro i hi hnot
    exact fold_update_frame keys _ _ sims
      (fun p hp => key_mem_of_mem_workingSet hp) i hi hnot

/-- C2: both try-again variants return the candidate keys unchanged in
the same positions with a score sequence of the input length, and every
position whose key is outside the working set `W` keeps exactly its
original score — only working-set positions can change. -/
theorem C2_frame_effect (cfg : TryAgainMechanism.Config)
    (cb : TryAgainMechanism.Collab)
    (ccb : TryAgainMechanismWithCoarseSenseInventory.Collab) (pos : String)
    (keys : List String) (sims : List Score) (k : Nat)
    (hlen : sims.length = keys.length) :
    ((TryAgainMechanism.try_again_mechanism cfg cb pos keys sims k).1 = keys
      ∧ (TryAgainMechanism.try_again_mechanism cfg cb pos keys sims k).2.length
          = sims.length
      ∧ ∀ i, i < keys.length →
          keys.getD i "" ∉ (workingSet keys sims k).map Prod.fst →
          (TryAgainMechanism.try_again_mechanism cfg cb pos keys sims k).2.getD i 0
            = sims.getD i 0)
    ∧ ((TryAgainMechanismWithCoarseSenseInventory.try_again_mechanism
          ccb pos keys sims k).1 = keys
      ∧ (TryAgainMechanismWithCoarseSenseInventory.try_again_mechanism
            ccb pos keys sims k).2.length = sims.length
      ∧ ∀ i, i < keys.length →
          keys.getD i "" ∉ (workingSet keys sims k).map Prod.fst →
          (TryAgainMechanismWithCoarseSenseInventory.try_again_mechanism
              ccb pos keys sims k).2.getD i 0 = sims.getD i 0) :=
  ⟨relation_walk_frame cfg cb pos keys sims k, csi_frame ccb pos keys sims k⟩

/-- Witness for C2 on a concrete two-candidate input. -/
theorem C2_frame_effect_witness :
    (([9, 8] : List Score).length = (["w1%s1", "w1%s2"] : List String).length)
    ∧ (((TryAgainMechanism.try_again_mechanism exampleConfig exampleCollab "n"
          ["w1%s1", "w1%s2"] [9, 8] 2).1 = ["w1%s1", "w1%s2"]
      ∧ (TryAgainMechanism.try_again_mechanism exampleConfig exampleCollab "n"
          ["w1%s1", "w1%s2"] [9, 8] 2).2.length = ([9, 8] : List Score).length
      ∧ ∀ i, i < (["w1%s1", "w1%s2"] : List String).length →
          (["w1%s1", "w1%s2"] : List String).getD i ""
            ∉ (workingSet ["w1%s1", "w1%s2"] [9, 8] 2).map Prod.fst →
          (TryAgainMechanism.try_again_mechanism exampleConfig exampleCollab "n"
            ["w1%s1", "w1%s2"] [9, 8] 2).2.getD i 0 = ([9, 8] : List Score).getD i 0)
    ∧ ((TryAgainMechanismWithCoarseSenseInventory.try_again_mechanism exampleCollabCSI "n"
          ["w1%s1", "w1%s2"] [9, 8] 2).1 = ["w1%s1", "w1%s2"]
      ∧ (TryAgainMechanismWithCoarseSenseInventory.try_again_mechanism exampleCollabCSI "n"
          ["w1%s1", "w1%s2"] [9, 8] 2).2.length = ([9, 8] : List Score).length
      ∧ ∀ i, i < (["w1%s1", "w1%s2"] : List String).length →
          (["w1%s1", "w1%s2"] : List String).getD i ""
            ∉ (workingSet ["w1%s1", "w1%s2"] [9, 8] 2).map Prod.fst →
          (TryAgainMechanismWithCoarseSenseInventory.try_again_mechanism exampleCollabCSI "n"
            ["w1%s1", "w1%s2"] [9, 8] 2).2.getD i 0 = ([9, 8] : List Score).getD i 0)) :=
  ⟨by decide,
    C2_frame_effect exampleConfig exampleCollab exampleCollabCSI "n"
      ["w1%s1", "w1%s2"] [9, 8] 2 (by decide)⟩

/-- C1 counterexample: with duplicated candidate keys `["k", "k"]` and
scores `[1, 0]`, the working set degenerates to one synset, its least
similar element is `("k", 0)` sitting at position 1, yet the code boosts
position 0 (the first occurrence found by `list.index`), so the output
`[⊤, 0]` differs from the claimed boost of the least-similar element
`[1, ⊤]`, and the untouched score 1 changes. -/
theorem C1_counterexample_duplicate_keys :
    ((["k", "k"] : List String).length = ([1, 0] : List Score).length)
    ∧ 2 ≤ (["k", "k"] : List String).length
    ∧ exampleConfig.do_not_fix_synset_degeneration_bug = true
    ∧ ((((workingSet ["k", "k"] [1, 0] 2).map
        (fun p => exampleCollab.lemma_key_to_synset_id p.1)).dedup).length = 1)
    ∧ (workingSet ["k", "k"] [1, 0] 2).getLastD ("", 0) = ("k", 0)
    ∧ ([1, 0] : List Score).getD 1 0 = ("k", (0 : Score)).2
    ∧ (TryAgainMechanism.try_again_mechanism exampleConfig exampleCollab "n"
          ["k", "k"] [1, 0] 2).2 = [⊤, 0]
    ∧ (TryAgainMechanism.try_again_mechanism exampleConfig exampleCollab "n"
          ["k", "k"] [1, 0] 2).2
        ≠ ([1, 0] : List Score).set 1 (([1, 0] : List Score).getD 1 0 + ⊤) := by
  refine ⟨by decide, by decide, rfl, by decide, by decide, by decide, by decide, by decide⟩

/-- C1 (amended): for the relation-walk variant with the degeneration
bug preserved, a candidate list of length at least two with pairwise
distinct keys whose working set resolves to a single synset id is
returned with its keys unchanged and only the score at the position of
the least-similar working-set element (the last of the descending
top-k sort) boosted by adding positive infinity; every other score is
unchanged.  (With duplicated keys the boost lands on the first
occurrence of that element's key instead.) -/
theorem C1_degenerate_synset_boost (cfg : TryAgainMechanism.Config)
    (cb : TryAgainMechanism.Collab) (pos : String) (keys : List String)
    (sims : List Score) (k : Nat)
    (hlen : sims.length = keys.length) (hk2 : 2 ≤ keys.length)
    (hflag : cfg.do_not_fix_synset_degeneration_bug = true)
    (hnodup : keys.Nodup)
    (hdeg : (((workingSet keys sims k).map
        (fun p => cb.lemma_key_to_synset_id p.1)).dedup).length = 1) :
    ∃ i, ∃ hi : i < keys.length,
      keys.getD i "" = ((workingSet keys sims k).getLastD ("", 0)).1
      ∧ sims.getD i 0 = ((workingSet keys sims k).getLastD ("", 0)).2
      ∧ TryAgainMechanism.try_again_mechanism cfg cb pos keys sims k
          = (keys, sims.set i (sims.getD i 0 + ⊤))
      ∧ ∀ j, j < sims.length → j ≠ i →
          (sims.set i (sims.getD i 0 + ⊤)).getD j 0 = sims.getD j 0 := by
  have hne1 : ¬ keys.length = 1 := by omega
  have hWne : workingSet keys sims k ≠ [] := by
    intro h0
    rw [h0] at hdeg
    simp at hdeg
  have hleast := getLastD_mem_of_ne_nil hWne
  have hzip := mem_zip_of_mem_workingSet hleast
  obtain ⟨i, hilt, hget⟩ := List.mem_iff_getElem.mp hzip
  have hiK : i < keys.length := by
    rw [List.length_zip] at hilt
    omega
  have hiS : i < sims.length := by
    rw [List.length_zip] at hilt
    omega
  rw [List.getElem_zip] at hget
  rw [Prod.ext_iff] at hget
  obtain ⟨hkey0, hsim0⟩ := hget
  have hkey : keys[i] = ((workingSet keys sims k).getLastD ("", 0)).1 := hkey0
  have hsim : sims[i] = ((workingSet keys sims k).getLastD ("", 0)).2 := hsim0
  have hkmem : ((workingSet keys sims k).getLastD ("", 0)).1 ∈ keys :=
    key_mem_of_mem_workingSet hleast
  have hidx_lt : List.indexOf ((workingSet keys sims k).getLastD ("", 0)).1 keys
      < keys.length := List.indexOf_lt_length.mpr hkmem
  have hidx_eq : List.indexOf ((workingSet keys sims k).getLastD ("", 0)).1 keys = i := by
    have hgi : keys[List.indexOf ((workingSet keys sims k).getLastD ("", 0)).1 keys]
        = keys[i] := by
      rw [List.getElem_indexOf hidx_lt]
      exact hkey.symm
    exact (hnodup.getElem_inj_iff).mp hgi
  refine ⟨i, hiK, ?_, ?_, ?_, ?_⟩
  · rw [List.getD_eq_getElem?_getD, List.getElem?_eq_getElem hiK]
    simpa using hkey
  · rw [List.getD_eq_getElem?_getD, List.getElem?_eq_getElem hiS]
    simpa using hsim
  · simp only [TryAgainMechanism.try_again_mechanism]
    rw [if_neg hne1, if_pos ⟨hdeg, hflag⟩, hidx_eq]
  · intro j hj hji
    exact getD_set_ne sims i j _ (fun h => hji h.symm)

/-- Witness for the amended C1 on the spec scenario shape: two distinct
keys resolving to one synset; the output boosts the lower-scored
second key and keeps the first score. -/
theorem C1_degenerate_synset_boost_witness :
    (([9, 8] : List Score).length = (["w1%s1", "w1%s2"] : List String).length)
    ∧ 2 ≤ (["w1%s1", "w1%s2"] : List String).length
    ∧ exampleConfig.do_not_fix_synset_degeneration_bug = true
    ∧ (["w1%s1", "w1%s2"] : List String).Nodup
    ∧ ((((workingSet ["w1%s1", "w1%s2"] [9, 8] 2).map
        (fun p => exampleCollab.lemma_key_to_synset_id p.1)).dedup).length = 1)
    ∧ (∃ i, ∃ hi : i < (["w1%s1", "w1%s2"] : List String).length,
        (["w1%s1", "w1%s2"] : List String).getD i ""
            = ((workingSet ["w1%s1", "w1%s2"] [9, 8] 2).getLastD ("", 0)).1
        ∧ ([9, 8] : List Score).getD i 0
            = ((workingSet ["w1%s1", "w1%s2"] [9, 8] 2).getLastD ("", 0)).2
        ∧ TryAgainMechanism.try_again_mechanism exampleConfig exampleCollab "n"
              ["w1%s1", "w1%s2"] [9, 8] 2
            = (["w1%s1", "w1%s2"],
               ([9, 8] : List Score).set i (([9, 8] : List Score).getD i 0 + ⊤))
        ∧ ∀ j, j < ([9, 8] : List Score).length → j ≠ i →
            (([9, 8] : List Score).set i (([9, 8] : List Score).getD i 0 + ⊤)).getD j 0
              = ([9, 8] : List Score).getD j 0)
    ∧ (TryAgainMechanism.try_again_mechanism exampleConfig exampleCollab "n"
          ["w1%s1", "w1%s2"] [9, 8] 2).2 = [9, ⊤] :=
  ⟨by decide, by decide, rfl, by decide, by decide,
    C1_degenerate_synset_boost exampleConfig exampleCollab "n"
      ["w1%s1", "w1%s2"] [9, 8] 2 (by decide) (by decide) rfl (by decide) (by decide),
    by decide⟩
